import Mathlib

/-!
# Verification of rs-rawzips2blobs2jsons

A shallow embedding of `src/lib.rs` of the repository
`rs-rawzips2blobs2jsons`: a pipeline that reads zip-archive filenames,
loads each archive under a byte ceiling, enumerates its entries, and
emits one JSON record per qualifying entry with the raw stored bytes of
`rawzip`'s `entry.data()` base64-encoded.  The program performs no
decompression, so for a Deflate-method entry those stored bytes are the
compressed stream; the entry model therefore carries both the stored
bytes (`rawData`, what the code touches) and the entry's decompressed
content (`uncompressed`, what several spec claims speak about), so that
statements can distinguish them.

Bytes are modelled as `Fin 256`; `u64` quantities as `Nat` with explicit
`% 2^64` where Rust wrap-around matters.  Fallible operations return
`Except`.  External collaborators (the `rawzip` parser, lossy UTF-8
decoding) are modelled as parameters bundled in `Env`; their observable
shape follows the spec's description of the Archive Entry Enumerator.
The output writer is modelled as an infallible sink: the functions return
the list of records written, in emission order.
-/

deriving instance DecidableEq for Except

namespace Rawzips

abbrev Byte := Fin 256

/-- `2^64`, the modulus of Rust `u64` arithmetic. -/
def U64MOD : Nat := 2 ^ 64

/-- Embeds `enum ReadError { Io(io::Error), SizeLimitExceeded }`
(src/lib.rs lines 11-15).  The payload of `Io` is dropped: no claim
inspects the inner `io::Error`. -/
inductive ReadError where
  | Io : ReadError
  | SizeLimitExceeded : ReadError
deriving DecidableEq, Repr

/-- A byte source (Rust `impl Read`): it yields `bytes` and then either
ends cleanly (`ioErr = false`) or raises an I/O fault (`ioErr = true`).
A reader wrapped in `take n` never touches the underlying source once
`n` bytes have been delivered, so the fault is observed only when the
cap is not reached first. -/
structure Source where
  bytes : List Byte
  ioErr : Bool
deriving DecidableEq, Repr

/-- Embeds `rdr2buf` (src/lib.rs lines 67-78):
`let mut taken = rdr.take(limit + 1); buf.clear(); taken.read_to_end(buf)?;
if buf.len() as u64 > limit { return Err(SizeLimitExceeded) } Ok(())`.
`limit + 1` is `u64` addition, hence the `% U64MOD`.  Returns the Rust
`Result` together with the contents of the caller-supplied buffer after
the call (the buffer is cleared and then filled by `read_to_end`, even
when an error is returned). -/
def rdr2buf (src : Source) (_buf : List Byte) (limit : Nat) :
    Except ReadError Unit × List Byte :=
  let n := (limit + 1) % U64MOD
  let buf := src.bytes.take n
  if src.bytes.length < n && src.ioErr then
    (Except.error ReadError.Io, buf)
  else if buf.length > limit then
    (Except.error ReadError.SizeLimitExceeded, buf)
  else
    (Except.ok (), buf)

/-- The number of bytes `rdr2buf` consumes from the underlying source:
the `take(limit + 1)` adapter stops after `(limit + 1) % 2^64` bytes,
and a shorter source is consumed whole. -/
def rdr2bufConsumed (src : Source) (limit : Nat) : Nat :=
  min src.bytes.length ((limit + 1) % U64MOD)

/-- A model of the filesystem: maps a path to the byte source obtained by
`File::open`, or `none` when opening fails. -/
def FS := String → Option Source

/-- Embeds `filename2buf` (src/lib.rs lines 80-86): `File::open` failure
becomes `ReadError::Io` (via `From<io::Error>`) and the buffer is left
untouched; otherwise defers to `rdr2buf`. -/
def filename2buf (fs : FS) (filename : String) (buf : List Byte)
    (limit : Nat) : Except ReadError Unit × List Byte :=
  match fs filename with
  | none => (Except.error ReadError.Io, buf)
  | some src => rdr2buf src buf limit

/-! ## Base64 (the `base64` crate's `general_purpose::STANDARD` engine:
RFC 4648 standard alphabet, with `=` padding) -/

/-- The standard base64 alphabet: index 0-63 to character. -/
def b64char (n : Nat) : Char :=
  if n < 26 then Char.ofNat (65 + n)
  else if n < 52 then Char.ofNat (97 + (n - 26))
  else if n < 62 then Char.ofNat (48 + (n - 52))
  else if n = 62 then '+'
  else '/'

/-- Inverse alphabet lookup: character to index 0-63, `none` for a
character outside the alphabet. -/
def b64index (c : Char) : Option Nat :=
  let n := c.toNat
  if 65 ≤ n ∧ n ≤ 90 then some (n - 65)
  else if 97 ≤ n ∧ n ≤ 122 then some (26 + (n - 97))
  else if 48 ≤ n ∧ n ≤ 57 then some (52 + (n - 48))
  else if c = '+' then some 62
  else if c = '/' then some 63
  else none

/-- Standard base64 encoding of a byte list, with padding, as the
`base64` crate's `STANDARD.encode` produces. -/
def b64encode : List Byte → List Char
  | [] => []
  | [b1] =>
      [b64char (b1.val / 4), b64char (b1.val % 4 * 16), '=', '=']
  | [b1, b2] =>
      [b64char (b1.val / 4), b64char (b1.val % 4 * 16 + b2.val / 16),
       b64char (b2.val % 16 * 4), '=']
  | b1 :: b2 :: b3 :: rest =>
      b64char (b1.val / 4) :: b64char (b1.val % 4 * 16 + b2.val / 16) ::
      b64char (b2.val % 16 * 4 + b3.val / 64) :: b64char (b3.val % 64) ::
      b64encode rest

/-- Builds a byte from a value, reducing mod 256 (every value fed to it
below is already `< 256`). -/
def mkByte (n : Nat) : Byte := ⟨n % 256, Nat.mod_lt n (by decide)⟩

/-- Standard base64 decoding: accepts the canonical padded form produced
by `b64encode` (quartets of alphabet characters, with a final quartet
optionally padded by one or two `=`) and rejects anything else. -/
def b64decode : List Char → Option (List Byte)
  | [] => some []
  | c1 :: c2 :: c3 :: c4 :: rest =>
      if c3 = '=' ∧ c4 = '=' ∧ rest = [] then do
        let n1 ← b64index c1
        let n2 ← b64index c2
        pure [mkByte (n1 * 4 + n2 / 16)]
      else if c4 = '=' ∧ rest = [] then do
        let n1 ← b64index c1
        let n2 ← b64index c2
        let n3 ← b64index c3
        pure [mkByte (n1 * 4 + n2 / 16), mkByte (n2 % 16 * 16 + n3 / 4)]
      else do
        let n1 ← b64index c1
        let n2 ← b64index c2
        let n3 ← b64index c3
        let n4 ← b64index c4
        let tail ← b64decode rest
        pure (mkByte (n1 * 4 + n2 / 16) :: mkByte (n2 % 16 * 16 + n3 / 4) ::
              mkByte (n3 % 4 * 64 + n4) :: tail)
  | _ => none

/-! ## Timestamp normalizer (`chrono` model) -/

/-- A calendar date, as `chrono::NaiveDate` exposes it. -/
structure NaiveDate where
  year : Int
  month : Nat
  day : Nat
deriving DecidableEq, Repr

/-- A time of day, as `chrono::NaiveTime` (whole seconds only; the code
never constructs sub-second or leap-second values). -/
structure NaiveTime where
  hour : Nat
  minute : Nat
  second : Nat
deriving DecidableEq, Repr

/-- `chrono::NaiveDateTime` / `DateTime<Utc>`: the code tags the naive
value with the zero UTC offset, adding no data. -/
structure NaiveDateTime where
  date : NaiveDate
  time : NaiveTime
deriving DecidableEq, Repr

/-- Proleptic-Gregorian leap-year rule, as `chrono` implements it. -/
def isLeapYear (y : Int) : Bool :=
  (y % 4 == 0 && y % 100 != 0) || (y % 400 == 0)

/-- Days in a month of the proleptic Gregorian calendar. -/
def daysInMonth (y : Int) (m : Nat) : Nat :=
  if m = 2 then (if isLeapYear y then 29 else 28)
  else if m = 4 ∨ m = 6 ∨ m = 9 ∨ m = 11 then 30
  else 31

/-- Validity test of `chrono::NaiveDate::from_ymd_opt`: month and day in
calendar range and the year representable by `chrono` (zip years fit in
`u16`, far inside that range). -/
def isValidYmd (y : Int) (m d : Nat) : Prop :=
  -262144 ≤ y ∧ y ≤ 262143 ∧ 1 ≤ m ∧ m ≤ 12 ∧ 1 ≤ d ∧ d ≤ daysInMonth y m

instance (y : Int) (m d : Nat) : Decidable (isValidYmd y m d) := by
  unfold isValidYmd; infer_instance

/-- `chrono::NaiveDate::from_ymd_opt`. -/
def fromYmdOpt (y : Int) (m d : Nat) : Option NaiveDate :=
  if isValidYmd y m d then some ⟨y, m, d⟩ else none

/-- Validity test of `chrono::NaiveTime::from_hms_opt`. -/
def isValidHms (h m s : Nat) : Prop := h < 24 ∧ m < 60 ∧ s < 60

instance (h m s : Nat) : Decidable (isValidHms h m s) := by
  unfold isValidHms; infer_instance

/-- `chrono::NaiveTime::from_hms_opt`. -/
def fromHmsOpt (h m s : Nat) : Option NaiveTime :=
  if isValidHms h m s then some ⟨h, m, s⟩ else none

/-- `chrono`'s `NaiveDate::default()`: the Unix epoch date 1970-01-01. -/
def defaultNaiveDate : NaiveDate := ⟨1970, 1, 1⟩

/-- `chrono`'s `NaiveTime::default()`: midnight 00:00:00. -/
def defaultNaiveTime : NaiveTime := ⟨0, 0, 0⟩

/-- The six date/time fields a zip entry carries, as `rawzip`'s
`ZipDateTimeKind` accessors expose them (`year()` is `u16`, the rest
`u8`; modelled as `Nat`, which subsumes those ranges). -/
structure ZDateTime where
  year : Nat
  month : Nat
  day : Nat
  hour : Nat
  minute : Nat
  second : Nat
deriving DecidableEq, Repr

/-- Embeds `zip_datetime_to_chrono_utc` (src/lib.rs lines 50-65):
`from_ymd_opt(..).unwrap_or_default()` and
`from_hms_opt(..).unwrap_or_default()`, paired into a naive datetime and
tagged with the UTC offset (which adds no data). -/
def zip_datetime_to_chrono_utc (zdt : ZDateTime) : NaiveDateTime :=
  let naive_date := (fromYmdOpt (zdt.year : Int) zdt.month zdt.day).getD defaultNaiveDate
  let naive_time := (fromHmsOpt zdt.hour zdt.minute zdt.second).getD defaultNaiveTime
  ⟨naive_date, naive_time⟩

/-- Two-digit zero-padded decimal, as `chrono`'s RFC 3339 rendering. -/
def pad2 (n : Nat) : String :=
  if n < 10 then "0" ++ toString n else toString n

/-- Four-digit zero-padded decimal. -/
def pad4 (n : Nat) : String :=
  if n < 10 then "000" ++ toString n
  else if n < 100 then "00" ++ toString n
  else if n < 1000 then "0" ++ toString n
  else toString n

/-- The year component of RFC 3339 text: four digits, sign-expanded
outside 0000-9999 as `chrono` renders it. -/
def yearStr (y : Int) : String :=
  if y < 0 then "-" ++ pad4 (-y).toNat
  else if y < 10000 then pad4 y.toNat
  else "+" ++ toString y.toNat

/-- `DateTime::<Utc>::to_rfc3339` for whole-second values:
`YYYY-MM-DDTHH:MM:SS+00:00`. -/
def toRfc3339 (dt : NaiveDateTime) : String :=
  yearStr dt.date.year ++ "-" ++ pad2 dt.date.month ++ "-" ++ pad2 dt.date.day
    ++ "T" ++ pad2 dt.time.hour ++ ":" ++ pad2 dt.time.minute ++ ":"
    ++ pad2 dt.time.second ++ "+00:00"

/-! ## Archive model (the `rawzip` collaborator) -/

/-- One archive entry as the enumerator exposes it: the raw file-path
bytes of the header; whether `archive.get_entry(wayfinder)` succeeds
(`resolveOk`); `rawData`, the bytes `entry.data()` yields on success —
`rawzip` returns the entry's raw STORED bytes (for a Deflate entry this
is the compressed stream; decompression is left to the caller, and this
program performs none); `uncompressed`, the entry's actual decompressed
content (what inflating the stored bytes yields; equal to `rawData` for
a Store-method entry, generally different for a Deflate entry) — the
program never computes it, the model carries it so that statements can
compare against the decoded byte count; the header's declared size
(never read by the record-building code path); and the header's
`last_modified()` fields. -/
structure ZEntry where
  filePath : List Byte
  resolveOk : Bool
  rawData : List Byte
  uncompressed : List Byte
  declaredSize : Nat
  lastModified : ZDateTime
deriving DecidableEq, Repr

/-- A parsed archive: `archive.entries()` yields a sequence of header
results, each a header or an entry-level error. -/
structure ZArchive where
  headers : List (Except Unit ZEntry)

/-- External collaborators of the core, modelled as parameters:
`parse` is `ZipArchive::from_slice` (a whole-archive parse failure, or
the archive's lazy entry sequence), `lossy` is
`String::from_utf8_lossy`. -/
structure Env where
  parse : List Byte → Except Unit ZArchive
  lossy : List Byte → String

/-! ## Record builder and pipeline (src/lib.rs lines 32-48, 99-248) -/

/-- Embeds `struct Metadata` (src/lib.rs lines 32-36); the serde rename
to `ZipName` only affects JSON field spelling. -/
structure Metadata where
  zip_name : String
deriving DecidableEq, Repr

/-- Embeds `struct Blob` (src/lib.rs lines 38-48), the emitted Record. -/
structure Blob where
  name : String
  content_type : String
  content_encoding : String
  content_transfer_encoding : String
  body : String
  metadata : Metadata
  content_length : Nat
  last_modified : String
deriving DecidableEq, Repr

/-- The `Blob` construction of src/lib.rs lines 118, 132-145 for one
resolved entry: lossy name decoding, base64 of `entry.data()`'s raw
stored bytes as `body`, their byte count as `content_length`, normalized
RFC 3339 timestamp. -/
def entry2blob (env : Env) (zip_name content_type content_encoding : String)
    (e : ZEntry) : Blob :=
  { name := env.lossy e.filePath
    content_type := content_type
    content_encoding := content_encoding
    content_transfer_encoding := "base64"
    body := String.mk (b64encode e.rawData)
    metadata := ⟨zip_name⟩
    content_length := e.rawData.length
    last_modified := toRfc3339 (zip_datetime_to_chrono_utc e.lastModified) }

/-- The entry loop of `buf2zip2blobs2jsons2writer` (src/lib.rs lines
113-149).  Returns the records written to the sink, in emission order,
together with the loop's result: `entry_result.map_err(..)?` (line 114)
and `archive.get_entry(..).map_err(..)?` (line 116) abort the loop with
an error — records already written stay written; an entry whose
`entry.data().len()` exceeds `max_item_size` is skipped and the loop
continues (lines 120-130). -/
def processEntries (env : Env) (zip_name content_type content_encoding : String)
    (max_item_size : Nat) :
    List (Except Unit ZEntry) → List Blob × Except Unit Unit
  | [] => ([], Except.ok ())
  | Except.error _ :: _ => ([], Except.error ())
  | Except.ok e :: rest =>
      if e.resolveOk = false then ([], Except.error ())
      else if e.rawData.length > max_item_size then
        processEntries env zip_name content_type content_encoding max_item_size rest
      else
        let p :=
          processEntries env zip_name content_type content_encoding max_item_size rest
        (entry2blob env zip_name content_type content_encoding e :: p.1, p.2)

/-- Embeds `buf2zip2blobs2jsons2writer` (src/lib.rs lines 99-152):
`ZipArchive::from_slice` failure returns an error with nothing emitted;
otherwise the entry loop runs.  The writer is modelled as an infallible
sink; `verbose` only gates diagnostic lines on stderr and is carried for
signature fidelity. -/
def buf2zip2blobs2jsons2writer (env : Env) (zip_name : String)
    (zipdata : List Byte) (content_type content_encoding : String)
    (max_item_size : Nat) (_verbose : Bool) : List Blob × Except Unit Unit :=
  match env.parse zipdata with
  | Except.error _ => ([], Except.error ())
  | Except.ok archive =>
      processEntries env zip_name content_type content_encoding max_item_size
        archive.headers

/-- Embeds `struct Options` (src/lib.rs lines 154-160). -/
structure Options where
  max_zip_size : Nat
  content_type : String
  content_encoding : String
  max_item_size : Nat
  verbose : Bool

/-- Embeds `zfilename2zip2blobs2jsons2writer` (src/lib.rs lines
162-216): a `filename2buf` failure is logged and the function returns
`Ok(())` with nothing emitted (lines 177-195); a
`buf2zip2blobs2jsons2writer` error is logged and swallowed (lines
200-215).  Returns the Rust result, the records emitted, and the reused
buffer's contents after the call. -/
def zfilename2zip2blobs2jsons2writer (env : Env) (fs : FS) (zfilename : String)
    (buf : List Byte) (options : Options) :
    Except Unit Unit × List Blob × List Byte :=
  let p := filename2buf fs zfilename buf options.max_zip_size
  match p.1 with
  | Except.error _ => (Except.ok (), [], p.2)
  | Except.ok _ =>
      let q := buf2zip2blobs2jsons2writer env zfilename p.2
        options.content_type options.content_encoding options.max_item_size
        options.verbose
      (Except.ok (), q.1, p.2)

/-- Embeds `zfilenames2zip2blobs2jsons2writer` (src/lib.rs lines
218-248): iterates the filename results; an `Err` filename is logged and
skipped; a per-filename error would be logged and swallowed; the loop
body never uses `?`, so the function returns `Ok(())`. -/
def zfilenames2zip2blobs2jsons2writer (env : Env) (fs : FS) :
    List (Except Unit String) → List Byte → Options →
    Except Unit Unit × List Blob × List Byte
  | [], buf, _ => (Except.ok (), [], buf)
  | Except.error _ :: rest, buf, options =>
      zfilenames2zip2blobs2jsons2writer env fs rest buf options
  | Except.ok zfilename :: rest, buf, options =>
      let q := zfilename2zip2blobs2jsons2writer env fs zfilename buf options
      let w := zfilenames2zip2blobs2jsons2writer env fs rest q.2.2 options
      (w.1, q.2.1 ++ w.2.1, w.2.2)

/-- The entries of one archive for which the loop of
`buf2zip2blobs2jsons2writer` emits a record: the headers up to the first
header error or resolution failure, restricted to entries whose raw
stored data (`entry.data().len()`, the quantity the code checks) is
within the
per-entry ceiling. -/
def keptEntries (max_item_size : Nat) :
    List (Except Unit ZEntry) → List ZEntry
  | [] => []
  | Except.error _ :: _ => []
  | Except.ok e :: rest =>
      if e.resolveOk = false then []
      else if e.rawData.length > max_item_size then keptEntries max_item_size rest
      else e :: keptEntries max_item_size rest

/-- The records one filename-result contributes to the run's output: an
unreadable filename line contributes nothing; a filename contributes
whatever `zfilename2zip2blobs2jsons2writer` emits for it (which does not
depend on the reused buffer's prior contents, since `rdr2buf` clears
it). -/
def perFilenameBlobs (env : Env) (fs : FS) (options : Options) :
    Except Unit String → List Blob
  | Except.error _ => []
  | Except.ok zfilename =>
      (zfilename2zip2blobs2jsons2writer env fs zfilename [] options).2.1

/-! ## Concrete fixtures (used by witness and counterexample theorems) -/

/-- A small Store-method entry: path `a`, stored bytes `hello` (equal to
its decompressed content), deliberately wrong declared size, leap-day
timestamp. -/
def wEntry : ZEntry :=
  ⟨[97], true, [104, 101, 108, 108, 111], [104, 101, 108, 108, 111], 99,
    ⟨2024, 2, 29, 12, 0, 0⟩⟩

/-- A Store-method entry whose 6 stored bytes exceed the 5-byte fixture
ceiling. -/
def wEntryBig : ZEntry :=
  ⟨[98], true, [1, 2, 3, 4, 5, 6], [1, 2, 3, 4, 5, 6], 6, ⟨2023, 6, 1, 0, 0, 0⟩⟩

/-- An entry whose payload resolution (`archive.get_entry`) fails. -/
def wEntryBad : ZEntry := ⟨[99], false, [1], [1], 1, ⟨2023, 6, 1, 0, 0, 0⟩⟩

/-- A qualifying entry placed after the failing one. -/
def wEntryC : ZEntry := ⟨[100], true, [120], [120], 1, ⟨2023, 6, 1, 0, 0, 0⟩⟩

/-- A Deflate-method entry: path `e`, 2 stored (compressed) bytes, but a
6-byte decompressed content — the shape of a compressed entry, in
particular of a decompression bomb relative to a 5-byte ceiling. -/
def wEntryDeflated : ZEntry :=
  ⟨[101], true, [1, 2], [0, 0, 0, 0, 0, 0], 6, ⟨2023, 6, 1, 0, 0, 0⟩⟩

/-- A two-entry archive: one qualifying entry, one oversized entry. -/
def wArchive : ZArchive := ⟨[Except.ok wEntry, Except.ok wEntryBig]⟩

/-- A one-entry archive holding only the Deflate-method entry. -/
def wArchiveBomb : ZArchive := ⟨[Except.ok wEntryDeflated]⟩

/-- An archive whose second entry fails to resolve while its third
qualifies. -/
def wArchiveC3 : ZArchive :=
  ⟨[Except.ok wEntry, Except.ok wEntryBad, Except.ok wEntryC]⟩

/-- A concrete lossy decoder for fixtures (all fixture paths are ASCII,
where lossy UTF-8 decoding is the identity). -/
def wLossy : List Byte → String :=
  fun bs => String.mk (bs.map fun b => Char.ofNat b.val)

/-- An environment whose parser always returns the given archive. -/
def wEnv (a : ZArchive) : Env := ⟨fun _ => Except.ok a, wLossy⟩

/-- Fixture options: archive ceiling 2 bytes, entry ceiling 5 bytes. -/
def wOptions : Options := ⟨2, "ct", "ce", 5, false⟩

/-- A fixture filesystem holding one 3-byte file `big.zip` (over the
2-byte fixture archive ceiling); every other path fails to open. -/
def wFS : FS :=
  fun name => if name = "big.zip" then some ⟨[1, 2, 3], false⟩ else none

/-! ## Lemmas: base64 -/

/-- Alphabet table facts, checked by enumeration: decoding inverts the
index-to-character table, and the table never yields the pad character. -/
theorem b64char_spec :
    ∀ m : Fin 64, b64index (b64char m.val) = some m.val ∧ ¬b64char m.val = '=' := by
  decide

theorem b64index_b64char (n : Nat) (h : n < 64) :
    b64index (b64char n) = some n :=
  (b64char_spec ⟨n, h⟩).1

theorem b64char_ne_pad (n : Nat) (h : n < 64) : ¬b64char n = '=' :=
  (b64char_spec ⟨n, h⟩).2

theorem mkByte_eq (x : Nat) (b : Byte) (h : x = b.val) : mkByte x = b := by
  subst h
  exact Fin.ext (Nat.mod_eq_of_lt b.isLt)

/-- Base64 round-trip: decoding an encoded byte list recovers it. -/
theorem b64decode_b64encode (bs : List Byte) :
    b64decode (b64encode bs) = some bs := by
  induction bs using b64encode.induct with
  | case1 => rfl
  | case2 b1 =>
      have h1 := b64index_b64char (b1.val / 4) (by omega)
      have h2 := b64index_b64char (b1.val % 4 * 16) (by omega)
      have hb1 := b1.isLt
      simp [b64encode, b64decode, h1, h2, mkByte, Fin.ext_iff]
      omega
  | case3 b1 b2 =>
      have h1 := b64index_b64char (b1.val / 4) (by omega)
      have h2 := b64index_b64char (b1.val % 4 * 16 + b2.val / 16) (by omega)
      have h3 := b64index_b64char (b2.val % 16 * 4) (by omega)
      have hp3 := b64char_ne_pad (b2.val % 16 * 4) (by omega)
      have hb1 := b1.isLt
      have hb2 := b2.isLt
      simp [b64encode, b64decode, hp3, h1, h2, h3, mkByte, Fin.ext_iff]
      omega
  | case4 b1 b2 b3 rest ih =>
      have h1 := b64index_b64char (b1.val / 4) (by omega)
      have h2 := b64index_b64char (b1.val % 4 * 16 + b2.val / 16) (by omega)
      have h3 := b64index_b64char (b2.val % 16 * 4 + b3.val / 64) (by omega)
      have h4 := b64index_b64char (b3.val % 64) (by omega)
      have hp3 := b64char_ne_pad (b2.val % 16 * 4 + b3.val / 64) (by omega)
      have hp4 := b64char_ne_pad (b3.val % 64) (by omega)
      have hb1 := b1.isLt
      have hb2 := b2.isLt
      have hb3 := b3.isLt
      simp [b64encode, b64decode, hp3, hp4, h1, h2, h3, h4, ih, mkByte,
        Fin.ext_iff]
      omega

/-! ## Lemmas: pipeline structure -/

/-- The records the entry loop writes are exactly the kept entries,
mapped through the record builder, in order. -/
theorem processEntries_fst (env : Env) (zn ct ce : String) (mis : Nat)
    (hs : List (Except Unit ZEntry)) :
    (processEntries env zn ct ce mis hs).1 =
      (keptEntries mis hs).map (entry2blob env zn ct ce) := by
  induction hs with
  | nil => rfl
  | cons h rest ih =>
      cases h with
      | error e => rfl
      | ok e =>
          by_cases hr : e.resolveOk = false
          · simp [processEntries, keptEntries, hr]
          · by_cases hsz : e.rawData.length > mis
            · simp [processEntries, keptEntries, hr, hsz, ih]
            · simp [processEntries, keptEntries, hr, hsz, ih]

/-- Every kept entry's raw stored data is within the per-entry
ceiling. -/
theorem keptEntries_rawData_le (mis : Nat) (hs : List (Except Unit ZEntry)) :
    ∀ e ∈ keptEntries mis hs, e.rawData.length ≤ mis := by
  induction hs with
  | nil => intro e he; cases he
  | cons h rest ih =>
      cases h with
      | error _ => intro e he; cases he
      | ok e0 =>
          by_cases hr : e0.resolveOk = false
          · simp [keptEntries, hr]
          · by_cases hsz : e0.rawData.length > mis
            · simpa [keptEntries, hr, hsz] using ih
            · intro e he
              rcases (by simpa [keptEntries, hr, hsz] using he :
                  e = e0 ∨ e ∈ keptEntries mis rest) with h1 | h1
              · subst h1; omega
              · exact ih e h1

/-- The per-filename stage always returns `Ok(())`: both failure sources
(`filename2buf`, `buf2zip2blobs2jsons2writer`) are logged and
swallowed. -/
theorem zfilename2_ok (env : Env) (fs : FS) (n : String) (buf : List Byte)
    (options : Options) :
    (zfilename2zip2blobs2jsons2writer env fs n buf options).1 = Except.ok () := by
  unfold zfilename2zip2blobs2jsons2writer
  cases hp : (filename2buf fs n buf options.max_zip_size).1 <;> simp [hp]

/-- The records a filename contributes do not depend on the reused
buffer's prior contents (`rdr2buf` clears the buffer first). -/
theorem zfilename2_blobs_buf_irrel (env : Env) (fs : FS) (n : String)
    (buf : List Byte) (options : Options) :
    (zfilename2zip2blobs2jsons2writer env fs n buf options).2.1 =
      (zfilename2zip2blobs2jsons2writer env fs n [] options).2.1 := by
  unfold zfilename2zip2blobs2jsons2writer filename2buf
  cases hfs : fs n <;> simp [hfs, rdr2buf]

/-- The driver loop always returns `Ok(())` and its output decomposes
filename by filename. -/
theorem zfilenames2_spec (env : Env) (fs : FS)
    (names : List (Except Unit String)) (buf : List Byte) (options : Options) :
    (zfilenames2zip2blobs2jsons2writer env fs names buf options).1 = Except.ok ()
    ∧ (zfilenames2zip2blobs2jsons2writer env fs names buf options).2.1 =
        names.flatMap (perFilenameBlobs env fs options) := by
  induction names generalizing buf with
  | nil => simp [zfilenames2zip2blobs2jsons2writer]
  | cons h rest ih =>
      cases h with
      | error e =>
          simpa [zfilenames2zip2blobs2jsons2writer, perFilenameBlobs]
            using ih buf
      | ok n =>
          refine ⟨?_, ?_⟩
          · simpa [zfilenames2zip2blobs2jsons2writer] using (ih _).1
          · simp only [zfilenames2zip2blobs2jsons2writer, List.flatMap_cons]
            rw [(ih _).2, perFilenameBlobs, zfilename2_blobs_buf_irrel]

/-! ## Claims -/

/-- The buffer `rdr2buf` fills is always the `take (limit + 1)` prefix
of the source (with wrapping `u64` addition). -/
theorem rdr2buf_snd (src : Source) (buf : List Byte) (limit : Nat) :
    (rdr2buf src buf limit).2 = src.bytes.take ((limit + 1) % U64MOD) := by
  simp only [rdr2buf]
  split
  · rfl
  · split <;> rfl

/-- A source strictly longer than a non-wrapping limit always produces
the `SizeLimitExceeded` failure. -/
theorem rdr2buf_fst_of_gt (src : Source) (buf : List Byte) (limit : Nat)
    (hgt : src.bytes.length > limit) (hL : limit + 1 < U64MOD) :
    (rdr2buf src buf limit).1 = Except.error ReadError.SizeLimitExceeded := by
  have hn : (limit + 1) % U64MOD = limit + 1 := Nat.mod_eq_of_lt hL
  have hnlt : ¬src.bytes.length < limit + 1 := by omega
  simp [rdr2buf, hn, hnlt, hgt, List.length_take]

/-- C4 counterexample: at `limit = u64::MAX = 2^64 - 1` and a one-byte
fault-free source, `rdr2buf` returns success although the buffer does
not hold the source's bytes — the claim's "on success the destination
buffer holds exactly the source's bytes" fails for this limit. -/
theorem c4_counterexample_u64_max :
    (rdr2buf ⟨[(0 : Byte)], false⟩ [] (2 ^ 64 - 1)).1 = Except.ok ()
    ∧ ([(0 : Byte)] : List Byte).length ≤ 2 ^ 64 - 1
    ∧ (rdr2buf ⟨[(0 : Byte)], false⟩ [] (2 ^ 64 - 1)).2 ≠ [(0 : Byte)] := by
  refine ⟨rfl, by decide, ?_⟩
  have h2 : (rdr2buf ⟨[(0 : Byte)], false⟩ [] (2 ^ 64 - 1)).2 = [] := rfl
  rw [h2]
  decide

/-- C4 (amended): for every fault-free byte source and every limit
`L` with `L + 1 < 2^64` (so the `u64` addition `limit + 1` does not
wrap), `rdr2buf` succeeds iff the source's byte count is `≤ L`, and on
success the destination buffer holds exactly the source's bytes. -/
theorem c4_bounded_reader_exact (src : Source) (buf : List Byte) (limit : Nat)
    (hio : src.ioErr = false) (hL : limit + 1 < U64MOD) :
    ((rdr2buf src buf limit).1 = Except.ok () ↔ src.bytes.length ≤ limit)
    ∧ (src.bytes.length ≤ limit → (rdr2buf src buf limit).2 = src.bytes) := by
  have hn : (limit + 1) % U64MOD = limit + 1 := Nat.mod_eq_of_lt hL
  by_cases hlen : src.bytes.length ≤ limit
  · have htake : src.bytes.take (limit + 1) = src.bytes :=
      List.take_of_length_le (by omega)
    refine ⟨⟨fun _ => hlen, fun _ => ?_⟩, fun _ => ?_⟩ <;>
      simp [rdr2buf, hn, hio, htake, Nat.not_lt.mpr hlen]
  · refine ⟨⟨fun hok => ?_, fun h => absurd h hlen⟩, fun h => absurd h hlen⟩
    have herr := rdr2buf_fst_of_gt src buf limit (by omega) hL
    rw [herr] at hok
    exact Except.noConfusion hok

/-- C4 witness: the amended theorem applied to a 2-byte source with
limit 5. -/
theorem c4_bounded_reader_exact_witness :
    (Source.mk [1, 2] false).ioErr = false ∧ (5 : Nat) + 1 < U64MOD ∧
    (((rdr2buf ⟨[1, 2], false⟩ [] 5).1 = Except.ok () ↔
        (Source.mk [1, 2] false).bytes.length ≤ 5)
      ∧ ((Source.mk [1, 2] false).bytes.length ≤ 5 →
        (rdr2buf ⟨[1, 2], false⟩ [] 5).2 = [1, 2])) :=
  ⟨rfl, by decide, c4_bounded_reader_exact ⟨[1, 2], false⟩ [] 5 rfl (by decide)⟩

/-- C8: a source longer than the limit makes `rdr2buf` return the
`SizeLimitExceeded` failure — in particular not `Ok`, so no truncated
data is delivered through the success channel — and that failure is
distinct from the `Io` failure. -/
theorem c8_size_limit_exceeded (src : Source) (buf : List Byte) (limit : Nat)
    (hgt : src.bytes.length > limit) (hlen : src.bytes.length < U64MOD) :
    (rdr2buf src buf limit).1 = Except.error ReadError.SizeLimitExceeded
    ∧ (rdr2buf src buf limit).1 ≠ Except.ok ()
    ∧ ReadError.SizeLimitExceeded ≠ ReadError.Io := by
  have hres := rdr2buf_fst_of_gt src buf limit hgt (by omega)
  exact ⟨hres, by rw [hres]; exact fun h => Except.noConfusion h, by decide⟩

/-- C8 witness: a 3-byte source against limit 2. -/
theorem c8_size_limit_exceeded_witness :
    (Source.mk [1, 2, 3] false).bytes.length > 2
    ∧ (Source.mk [1, 2, 3] false).bytes.length < U64MOD
    ∧ ((rdr2buf ⟨[1, 2, 3], false⟩ [] 2).1 = Except.error ReadError.SizeLimitExceeded
      ∧ (rdr2buf ⟨[1, 2, 3], false⟩ [] 2).1 ≠ Except.ok ()
      ∧ ReadError.SizeLimitExceeded ≠ ReadError.Io) :=
  ⟨by decide, by decide, c8_size_limit_exceeded ⟨[1, 2, 3], false⟩ [] 2 (by decide) (by decide)⟩

/-- C9: the `take(limit + 1)` adapter caps consumption, so `rdr2buf`
consumes at most `limit + 1` bytes from the source (the buffer it fills
is exactly the consumed bytes). -/
theorem c9_consumes_at_most_limit_succ (src : Source) (buf : List Byte)
    (limit : Nat) :
    (rdr2buf src buf limit).2.length = rdr2bufConsumed src limit
    ∧ rdr2bufConsumed src limit ≤ limit + 1 := by
  constructor
  · rw [rdr2buf_snd]
    simp [rdr2bufConsumed, List.length_take, Nat.min_comm]
  · exact le_trans (Nat.min_le_right _ _) (Nat.mod_le _ _)

/-- C10: at `limit = u64::MAX`, `limit + 1` wraps to `0`, the reader
takes 0 bytes and returns success with an empty buffer for every source
(consuming nothing), and there is a non-empty source under the limit for
which the returned buffer is not the source's bytes — the Bounded Reader
contract fails at this limit. -/
theorem c10_u64_max_wraps (src : Source) (buf : List Byte) :
    rdr2buf src buf (2 ^ 64 - 1) = (Except.ok (), [])
    ∧ rdr2bufConsumed src (2 ^ 64 - 1) = 0
    ∧ ∃ src' : Source, src'.bytes ≠ [] ∧ src'.bytes.length ≤ 2 ^ 64 - 1 ∧
        (rdr2buf src' buf (2 ^ 64 - 1)).2 ≠ src'.bytes := by
  have hn : (2 ^ 64 - 1 + 1) % U64MOD = 0 := by norm_num [U64MOD]
  refine ⟨?_, ?_, ⟨⟨[0], false⟩, by decide, by decide, ?_⟩⟩
  · have h2 := rdr2buf_snd src buf (2 ^ 64 - 1)
    rw [hn] at h2
    simp only [List.take_zero] at h2
    have h1 : (rdr2buf src buf (2 ^ 64 - 1)).1 = Except.ok () := by
      norm_num [rdr2buf, U64MOD]
    exact Prod.ext h1 h2
  · norm_num [rdr2bufConsumed, U64MOD]
  · have h2 := rdr2buf_snd ⟨[0], false⟩ buf (2 ^ 64 - 1)
    rw [hn] at h2
    simp only [List.take_zero] at h2
    rw [h2]
    decide

/-- C7: the timestamp normalizer is total: an invalid calendar date
falls back to `chrono`'s default date (1970-01-01), an invalid
time-of-day falls back to the default time (00:00:00), valid fields pass
through, and the record builder always proceeds with the resulting
rendered UTC timestamp. -/
theorem c7_timestamp_fallback (z : ZDateTime) :
    (¬isValidYmd (z.year : Int) z.month z.day →
      (zip_datetime_to_chrono_utc z).date = defaultNaiveDate)
    ∧ (isValidYmd (z.year : Int) z.month z.day →
      (zip_datetime_to_chrono_utc z).date = ⟨(z.year : Int), z.month, z.day⟩)
    ∧ (¬isValidHms z.hour z.minute z.second →
      (zip_datetime_to_chrono_utc z).time = defaultNaiveTime)
    ∧ (isValidHms z.hour z.minute z.second →
      (zip_datetime_to_chrono_utc z).time = ⟨z.hour, z.minute, z.second⟩)
    ∧ ∀ (env : Env) (zn ct ce : String) (e : ZEntry),
        (entry2blob env zn ct ce e).last_modified =
          toRfc3339 (zip_datetime_to_chrono_utc e.lastModified) := by
  refine ⟨fun h => ?_, fun h => ?_, fun h => ?_, fun h => ?_,
    fun _ _ _ _ _ => rfl⟩
  · simp [zip_datetime_to_chrono_utc, fromYmdOpt, h]
  · simp [zip_datetime_to_chrono_utc, fromYmdOpt, h]
  · simp [zip_datetime_to_chrono_utc, fromHmsOpt, h]
  · simp [zip_datetime_to_chrono_utc, fromHmsOpt, h]

/-- C7 witness: month 13, day 32, hour 24, minute 60, second 61 all fall
back to the defaults. -/
theorem c7_timestamp_fallback_witness :
    ¬isValidYmd ((1980 : Nat) : Int) 13 32
    ∧ (zip_datetime_to_chrono_utc ⟨1980, 13, 32, 24, 60, 61⟩).date = defaultNaiveDate
    ∧ ¬isValidHms 24 60 61
    ∧ (zip_datetime_to_chrono_utc ⟨1980, 13, 32, 24, 60, 61⟩).time = defaultNaiveTime :=
  ⟨by decide,
   (c7_timestamp_fallback ⟨1980, 13, 32, 24, 60, 61⟩).1 (by decide),
   by decide,
   (c7_timestamp_fallback ⟨1980, 13, 32, 24, 60, 61⟩).2.2.1 (by decide)⟩

/-- C1 (code bug): the code evaluated at a Deflate-method entry.  The
record is emitted and its `content_length` equals the byte count of
`entry.data()`'s raw stored bytes — the compressed size — which differs
from the entry's decompressed byte count: src/lib.rs line 117 feeds
`entry.data()` straight to the record builder and nothing ever
decompresses, contradicting the claim's "decoded byte count, never the
compressed size". -/
theorem c1_content_length_is_stored_size :
    (buf2zip2blobs2jsons2writer (wEnv wArchiveBomb) "z" [] "ct" "ce" 5 false).1 =
      [entry2blob (wEnv wArchiveBomb) "z" "ct" "ce" wEntryDeflated]
    ∧ (entry2blob (wEnv wArchiveBomb) "z" "ct" "ce" wEntryDeflated).content_length =
        wEntryDeflated.rawData.length
    ∧ wEntryDeflated.rawData.length ≠ wEntryDeflated.uncompressed.length := by
  decide

/-- C2 (code bug): the code evaluated at a Deflate-method entry.  The
record is emitted and base64-decoding its `body` yields exactly
`entry.data()`'s raw stored bytes — the compressed stream — not the
entry's original decompressed bytes, which differ. -/
theorem c2_body_decodes_to_stored_bytes :
    entry2blob (wEnv wArchiveBomb) "z" "ct" "ce" wEntryDeflated ∈
      (buf2zip2blobs2jsons2writer (wEnv wArchiveBomb) "z" [] "ct" "ce" 5 false).1
    ∧ b64decode
        (entry2blob (wEnv wArchiveBomb) "z" "ct" "ce" wEntryDeflated).body.data =
        some wEntryDeflated.rawData
    ∧ wEntryDeflated.rawData ≠ wEntryDeflated.uncompressed := by
  decide

/-- The entry loop on a list of resolving headers followed by one entry
whose resolution fails: the qualifying earlier entries are emitted, the
loop stops with an error, nothing after the failing entry is emitted. -/
theorem processEntries_resolve_fail (env : Env) (zn ct ce : String) (mis : Nat) :
    ∀ pre : List ZEntry, (∀ e ∈ pre, e.resolveOk = true) →
      ∀ bad : ZEntry, bad.resolveOk = false →
      ∀ post : List (Except Unit ZEntry),
        processEntries env zn ct ce mis
            (pre.map Except.ok ++ Except.ok bad :: post) =
          ((pre.filter fun e => e.rawData.length ≤ mis).map
              (entry2blob env zn ct ce),
            Except.error ()) := by
  intro pre
  induction pre with
  | nil =>
      intro _ bad hbad post
      simp [processEntries, hbad]
  | cons e pre' ih =>
      intro hpre bad hbad post
      have he : e.resolveOk = true := hpre e (List.mem_cons_self e pre')
      have hpre' : ∀ x ∈ pre', x.resolveOk = true :=
        fun x hx => hpre x (List.mem_cons_of_mem e hx)
      by_cases hsz : e.rawData.length > mis
      · simp [processEntries, he, hsz, ih hpre' bad hbad post,
          Nat.not_le.mpr hsz]
      · simp [processEntries, he, hsz, ih hpre' bad hbad post,
          Nat.not_lt.mp hsz]

/-- C3 counterexample: in the fixture archive `[a, bad, c]`, entry
`bad`'s resolution fails and entry `c` after it qualifies (resolves,
under the ceiling), yet only one record — for `a` — is emitted: the
claimed skip-and-continue behaviour does not hold. -/
theorem c3_counterexample_resolution_aborts :
    wEntryBad.resolveOk = false
    ∧ wEntryC.resolveOk = true
    ∧ wEntryC.rawData.length ≤ 5
    ∧ (buf2zip2blobs2jsons2writer (wEnv wArchiveC3) "z" [] "ct" "ce" 5 false).1.length = 1
    ∧ entry2blob (wEnv wArchiveC3) "z" "ct" "ce" wEntryC ∉
        (buf2zip2blobs2jsons2writer (wEnv wArchiveC3) "z" [] "ct" "ce" 5 false).1 := by
  decide

/-- C3 (amended): a payload-resolution failure at entry `e_i` aborts the
entry loop for that archive: records for qualifying entries before `e_i`
stay emitted, the loop returns an error and emits nothing for any later
entry; the per-filename driver swallows that error, so the run continues
with the remaining archives. -/
theorem c3_resolution_failure_aborts_archive (env : Env) (zn ct ce : String)
    (mis : Nat) (pre : List ZEntry) (bad : ZEntry)
    (post : List (Except Unit ZEntry))
    (hpre : ∀ e ∈ pre, e.resolveOk = true) (hbad : bad.resolveOk = false) :
    processEntries env zn ct ce mis (pre.map Except.ok ++ Except.ok bad :: post) =
      ((pre.filter fun e => e.rawData.length ≤ mis).map (entry2blob env zn ct ce),
        Except.error ())
    ∧ ∀ (fs : FS) (n : String) (buf : List Byte) (options : Options),
        (zfilename2zip2blobs2jsons2writer env fs n buf options).1 = Except.ok () :=
  ⟨processEntries_resolve_fail env zn ct ce mis pre hpre bad hbad post,
   fun fs n buf options => zfilename2_ok env fs n buf options⟩

/-- C3 witness for the amended statement: fixture entries `[a]`, `bad`,
`[c]`. -/
theorem c3_resolution_failure_aborts_archive_witness :
    (∀ e ∈ [wEntry], e.resolveOk = true)
    ∧ wEntryBad.resolveOk = false
    ∧ (processEntries (wEnv wArchiveC3) "z" "ct" "ce" 5
          ([wEntry].map Except.ok ++ Except.ok wEntryBad :: [Except.ok wEntryC]) =
        (([wEntry].filter fun e => e.rawData.length ≤ 5).map
            (entry2blob (wEnv wArchiveC3) "z" "ct" "ce"),
          Except.error ())
      ∧ ∀ (fs : FS) (n : String) (buf : List Byte) (options : Options),
          (zfilename2zip2blobs2jsons2writer (wEnv wArchiveC3) fs n buf options).1 =
            Except.ok ()) :=
  ⟨by decide, by decide,
   c3_resolution_failure_aborts_archive (wEnv wArchiveC3) "z" "ct" "ce" 5
     [wEntry] wEntryBad [Except.ok wEntryC] (by decide) (by decide)⟩

/-- C5: the driver returns `Ok(())` for every input, its output is the
concatenation of each filename's contribution (so every failure is
handled locally and every remaining filename is still processed), and
the per-filename stage itself always returns `Ok(())`. -/
theorem c5_failures_never_terminate_run (env : Env) (fs : FS)
    (names : List (Except Unit String)) (buf : List Byte) (options : Options) :
    (zfilenames2zip2blobs2jsons2writer env fs names buf options).1 = Except.ok ()
    ∧ (zfilenames2zip2blobs2jsons2writer env fs names buf options).2.1 =
        names.flatMap (perFilenameBlobs env fs options)
    ∧ ∀ (n : String) (buf' : List Byte),
        (zfilename2zip2blobs2jsons2writer env fs n buf' options).1 = Except.ok () :=
  ⟨(zfilenames2_spec env fs names buf options).1,
   (zfilenames2_spec env fs names buf options).2,
   fun n buf' => zfilename2_ok env fs n buf' options⟩

/-- C6 counterexample: the per-entry ceiling is checked on
`entry.data().len()`, the raw stored byte count, not on the realized
(decompressed) byte count: the Deflate-method fixture entry has a 6-byte
decompressed content, over the 5-byte ceiling, yet its record is emitted
(its 2 stored bytes pass the check). -/
theorem c6_counterexample_bomb_emitted :
    wEntryDeflated.uncompressed.length > 5
    ∧ entry2blob (wEnv wArchiveBomb) "z" "ct" "ce" wEntryDeflated ∈
        (buf2zip2blobs2jsons2writer (wEnv wArchiveBomb) "z" [] "ct" "ce" 5 false).1 := by
  decide

/-- C6 (amended): the per-entry ceiling is enforced on the raw stored
byte count of `entry.data()` — exactly the bytes placed in the record —
so no emitted record's `content_length` exceeds the ceiling and its
`body` decodes to at most the ceiling's worth of bytes; an archive whose
byte count exceeds the archive ceiling contributes zero records; and the
run's output is the per-filename concatenation, so sibling archives are
unaffected.  (An entry whose decompressed size exceeds the ceiling may
still be emitted, in compressed form, when its stored size is within the
ceiling: see the counterexample.) -/
theorem c6_ceiling_on_stored_bytes (env : Env) (fs : FS) (options : Options)
    (zn ct ce : String) (zipdata : List Byte) (v : Bool) (n : String)
    (src : Source) (buf : List Byte) (names : List (Except Unit String))
    (hfs : fs n = some src)
    (hsize : src.bytes.length > options.max_zip_size)
    (hwrap : options.max_zip_size + 1 < U64MOD) :
    (∀ b ∈ (buf2zip2blobs2jsons2writer env zn zipdata ct ce
        options.max_item_size v).1,
      b.content_length ≤ options.max_item_size
      ∧ ∃ d, b64decode b.body.data = some d ∧ d.length ≤ options.max_item_size)
    ∧ (zfilename2zip2blobs2jsons2writer env fs n buf options).2.1 = []
    ∧ (zfilenames2zip2blobs2jsons2writer env fs names buf options).2.1 =
        names.flatMap (perFilenameBlobs env fs options) := by
  refine ⟨?_, ?_, (zfilenames2_spec env fs names buf options).2⟩
  · intro b hb
    cases hp : env.parse zipdata with
    | error e =>
        unfold buf2zip2blobs2jsons2writer at hb
        rw [hp] at hb
        cases hb
    | ok a =>
        have h1 : (buf2zip2blobs2jsons2writer env zn zipdata ct ce
            options.max_item_size v).1 =
            (keptEntries options.max_item_size a.headers).map
              (entry2blob env zn ct ce) := by
          unfold buf2zip2blobs2jsons2writer
          rw [hp]
          exact processEntries_fst env zn ct ce options.max_item_size a.headers
        rw [h1] at hb
        obtain ⟨e, he, rfl⟩ := List.mem_map.mp hb
        have hle := keptEntries_rawData_le options.max_item_size a.headers e he
        exact ⟨hle, e.rawData, b64decode_b64encode e.rawData, hle⟩
  · have herr : (filename2buf fs n buf options.max_zip_size).1 =
        Except.error ReadError.SizeLimitExceeded := by
      unfold filename2buf
      rw [hfs]
      exact rdr2buf_fst_of_gt src buf options.max_zip_size hsize hwrap
    unfold zfilename2zip2blobs2jsons2writer
    simp [herr]

/-- C6 witness: the 3-byte `big.zip` against the 2-byte archive ceiling
of the fixture options. -/
theorem c6_ceiling_on_stored_bytes_witness :
    wFS "big.zip" = some ⟨[1, 2, 3], false⟩
    ∧ (Source.mk [1, 2, 3] false).bytes.length > wOptions.max_zip_size
    ∧ wOptions.max_zip_size + 1 < U64MOD
    ∧ ((∀ b ∈ (buf2zip2blobs2jsons2writer (wEnv wArchive) "z" [] "ct" "ce"
          wOptions.max_item_size false).1,
          b.content_length ≤ wOptions.max_item_size
          ∧ ∃ d, b64decode b.body.data = some d ∧ d.length ≤ wOptions.max_item_size)
      ∧ (zfilename2zip2blobs2jsons2writer (wEnv wArchive) wFS "big.zip" []
          wOptions).2.1 = []
      ∧ (zfilenames2zip2blobs2jsons2writer (wEnv wArchive) wFS
          [Except.ok "big.zip"] [] wOptions).2.1 =
          [Except.ok "big.zip"].flatMap
            (perFilenameBlobs (wEnv wArchive) wFS wOptions)) :=
  ⟨rfl, by decide, by decide,
   c6_ceiling_on_stored_bytes (wEnv wArchive) wFS wOptions "z" "ct" "ce" [] false
     "big.zip" ⟨[1, 2, 3], false⟩ [] [Except.ok "big.zip"] rfl (by decide)
     (by decide)⟩

end Rawzips
